import Mathlib

/-!
# Verification of the chunked data reader driver

A shallow embedding of `ChunkedDataReader` (csv/reader.cc): the chunking
planner `determine_chunking_strategy`, the output allocator
`realloc_output_columns`, the commit stage of `read_all`, the boundary
reconciler `order_chunk`, the post-loop buffer handling, and the progress
reporting policy.

Modelling conventions:
* `size_t` values (byte offsets, row counts, chunk counts) are modelled as
  `Nat`; all arithmetic in the driver stays far below `2 ^ 64`, so wrap-around
  is never exercised on the states considered here.
* `double` values (`lineLength`, the `1.2 * ...` growth expression) are
  modelled as exact rationals `ℚ`; a `static_cast<size_t>` of a nonnegative
  `double` is `Int.toNat ∘ Int.floor` (truncation toward zero).
* The per-worker parse context is abstracted by a pure function
  `read_chunk : Nat → ChunkCoordinates → ChunkCoordinates` mapping the call
  ordinal and the expected coordinates to the actual coordinates consumed;
  side effects of `read_chunk` on the context buffers are irrelevant to the
  reconciler control flow, which only inspects the returned coordinates.
* `xassert` failure and C++ exceptions are modelled with explicit result
  constructors.
-/

namespace Datatable

/-- Chunk coordinates: byte offsets `[start, end)` of a chunk together with
flags recording whether each endpoint is known to lie on a record boundary.
(`end` is a Lean keyword, hence the field name `end_`.) -/
structure ChunkCoordinates where
  start : Nat
  end_ : Nat
  true_start : Bool
  true_end : Bool
deriving DecidableEq, Repr

/-- The mutable counters of `ChunkedDataReader` that the commit stage of
`read_all` and `realloc_output_columns` read and write. -/
structure ChunkedDataReader where
  chunkCount : Nat
  nrows_written : Nat
  nrows_allocated : Nat
  nrows_max : Nat
deriving DecidableEq, Repr

/-- Line 27 of the constructor: `lineLength = std::max(meanLineLen, 1.0)`. -/
def lineLength_init (meanLineLen : ℚ) : ℚ :=
  max meanLineLen 1

/-- `ChunkedDataReader::determine_chunking_strategy` (lines 38-52), as a pure
function of the quantities it reads: `inputSize = inputEnd - inputStart`,
`lineLength`, and `nthreads`.  Returns `(chunkSize, chunkCount, nthreads)`.
`size1000 = static_cast<size_t>(1000 * lineLength)` truncates the (nonnegative)
product; divisions are the C `size_t` (floor) divisions. -/
def determine_chunking_strategy (inputSize : Nat) (lineLength : ℚ)
    (nthreads : Nat) : Nat × Nat × Nat :=
  let size1000 : Nat := (Int.floor (1000 * lineLength)).toNat
  let chunkSize := max size1000 (1 <<< 18)
  let chunkCount := max (inputSize / chunkSize) 1
  if chunkCount > nthreads then
    let chunkCount1 := nthreads * (1 + (chunkCount - 1) / nthreads)
    (inputSize / chunkCount1, chunkCount1, nthreads)
  else
    (inputSize / chunkCount, chunkCount, chunkCount)

/-- `ChunkedDataReader::realloc_output_columns` (lines 233-252), acting on the
counter state.  `new_alloc` is the caller-supplied required row count; on the
non-final chunk it is inflated by `1.2 * new_alloc * chunkCount / (ichunk + 1)`
(computed in `double`, truncated by the `static_cast<size_t>`) with a floor of
`1024 + nrows_allocated`, and the result is clamped at `nrows_max`. -/
def realloc_output_columns (st : ChunkedDataReader) (ichunk new_alloc : Nat) :
    ChunkedDataReader :=
  let new_alloc1 :=
    if ichunk = st.chunkCount - 1 then
      new_alloc
    else
      let exp_nrows : ℚ := 1.2 * new_alloc * st.chunkCount / (ichunk + 1)
      max (Int.floor exp_nrows).toNat (1024 + st.nrows_allocated)
  let new_alloc2 := if new_alloc1 > st.nrows_max then st.nrows_max else new_alloc1
  { st with nrows_allocated := new_alloc2 }

/-- The row-accounting part of the ordered commit phase of
`ChunkedDataReader::read_all` (lines 174-185): given the current counters, the
chunk index `i`, and the context `used_nrows` after `order_chunk`, compute the
updated counters and the (possibly truncated) `used_nrows` of the context.
Orders of events follow the source: `nrows_new = nrows_written + used_nrows`;
if that exceeds `nrows_allocated`, either truncate (when
`nrows_allocated == nrows_max`) or call `realloc_output_columns`;
finally `nrows_written = nrows_new`. -/
def commit_rows (st : ChunkedDataReader) (i used_nrows : Nat) :
    ChunkedDataReader × Nat :=
  let nrows_new := st.nrows_written + used_nrows
  if nrows_new > st.nrows_allocated then
    if st.nrows_allocated = st.nrows_max then
      ({ st with nrows_written := st.nrows_allocated },
       st.nrows_allocated - st.nrows_written)
    else
      let st1 := realloc_output_columns st i nrows_new
      ({ st1 with nrows_written := nrows_new }, used_nrows)
  else
    ({ st with nrows_written := nrows_new }, used_nrows)

/-- Result of `ChunkedDataReader::order_chunk`: either the chunk is accepted
(recording the advanced `lastChunkEnd`), or the `xassert(i)` fires
(`InternalInvariantError`).  In both cases `readChunkCalls` counts how many
times `ctx->read_chunk` was invoked by `order_chunk` itself. -/
inductive OrderResult where
  | committed (lastChunkEnd : Nat) (readChunkCalls : Nat)
  | internalError (readChunkCalls : Nat)
deriving DecidableEq, Repr

/-- Number of `read_chunk` invocations recorded in an `OrderResult`. -/
def OrderResult.readChunkCalls : OrderResult → Nat
  | .committed _ n => n
  | .internalError n => n

/-- `ChunkedDataReader::order_chunk` (lines 255-270).  The source loop
`int i = 2; while (i--) { ... }` runs its body at most twice, so it is unrolled
here.  On each attempt: if `acc.start == lastChunkEnd && acc.end >=
lastChunkEnd`, accept and advance `lastChunkEnd := acc.end`; otherwise set
`xcc.start := lastChunkEnd`, `xcc.true_start := true`, call
`ctx->read_chunk(xcc, acc)`, and then check `xassert(i)`.  On the second
failed attempt the body still performs the `read_chunk` call before
`xassert(i)` is reached with `i == 0` and fails. -/
def order_chunk (read_chunk : Nat → ChunkCoordinates → ChunkCoordinates)
    (lastChunkEnd : Nat) (acc xcc : ChunkCoordinates) : OrderResult :=
  if acc.start = lastChunkEnd ∧ lastChunkEnd ≤ acc.end_ then
    .committed acc.end_ 0
  else
    let xcc1 := { xcc with start := lastChunkEnd, true_start := true }
    let acc1 := read_chunk 0 xcc1
    -- xassert(i) with i = 1: passes, loop runs a second time
    if acc1.start = lastChunkEnd ∧ lastChunkEnd ≤ acc1.end_ then
      .committed acc1.end_ 1
    else
      let xcc2 := { xcc1 with start := lastChunkEnd, true_start := true }
      let _acc2 := read_chunk 1 xcc2
      -- xassert(i) with i = 0: fails, after the second read_chunk call
      .internalError 2

/-- Lines 198-209 of `read_all`, per worker, after the chunk loop: if an
exception was captured, discard the buffers (`used_nrows = 0`); then call
`push_buffers` one last time only when `used_nrows` is nonzero.  Returns the
final `used_nrows` of the context and whether the final `push_buffers`
was performed. -/
def read_all_epilogue (exception_caught : Bool) (used_nrows : Nat) :
    Nat × Bool :=
  let used := if exception_caught then 0 else used_nrows
  (used, used != 0)

/-- Line 133: `tShowProgress = g.report_progress && tMaster`. -/
def tShowProgress (report_progress tMaster : Bool) : Bool :=
  report_progress && tMaster

/-- Line 134: `tShowAlways = tShowProgress && (inputEnd - inputStart > (1 << 28))`. -/
def tShowAlways_init (showProgress : Bool) (inputSize : Nat) : Bool :=
  showProgress && decide (inputSize > 1 <<< 28)

/-- Lines 154-157, iterated over the chunk loop: at each iteration that
reaches the progress check, `tShowAlways` becomes true (and a progress event
is emitted) when `tShowAlways || (tShowProgress && wallclock() >= tShowWhen)`.
The list `fired` records, for each such iteration, the outcome of the
wallclock comparison.  Returns the final value of `tShowAlways`. -/
def progress_showAlways (showProgress : Bool) (init : Bool)
    (fired : List Bool) : Bool :=
  fired.foldl (fun sa f => sa || (showProgress && f)) init

/-- Lines 211-215 of `read_all`: the final progress event.  Emitted only when
`tShowAlways` holds at the end of the parallel region, with status
`1 + oem.exception_caught() + oem.is_keyboard_interrupt()`.  `none` means no
final event is emitted. -/
def final_progress (showAlwaysEnd : Bool) (caught interrupted : Bool) :
    Option Nat :=
  if showAlwaysEnd then
    some (1 + (cond caught 1 0) + (cond interrupted 1 0))
  else
    none

/-- The allocation size exactly as the spec words it for claim C4, with the
ceiling: `new_alloc := new_required` on the last chunk, otherwise
`max(⌈1.2 * new_required * chunk_count / (i + 1)⌉, nrows_allocated + 1024)`,
then clamped to `min(new_alloc, nrows_max)`. -/
def realloc_alloc_claimed (st : ChunkedDataReader) (ichunk new_required : Nat) :
    Nat :=
  let new_alloc :=
    if ichunk = st.chunkCount - 1 then
      new_required
    else
      max (Int.ceil ((1.2 : ℚ) * new_required * st.chunkCount / (ichunk + 1))).toNat
        (st.nrows_allocated + 1024)
  min new_alloc st.nrows_max

/-- The amended allocation formula: as `realloc_alloc_claimed` but with the
truncation (floor) the `static_cast<size_t>` actually performs in the source,
in place of the ceiling. -/
def realloc_alloc_amended (st : ChunkedDataReader) (ichunk new_required : Nat) :
    Nat :=
  let new_alloc :=
    if ichunk = st.chunkCount - 1 then
      new_required
    else
      max (Int.floor ((1.2 : ℚ) * new_required * st.chunkCount / (ichunk + 1))).toNat
        (st.nrows_allocated + 1024)
  min new_alloc st.nrows_max

/-- A `read_chunk` behaviour that never satisfies the reconciler: the actual
start always overshoots the expected start by one byte. -/
def overshootingReadChunk : Nat → ChunkCoordinates → ChunkCoordinates :=
  fun _ c => { c with start := c.start + 1 }


/-! ## Helper lemmas -/

/-- The growth expression of `realloc_output_columns`, truncated to `Nat`,
is the integer division `6 * x * cc / (5 * (i + 1))` (since `1.2 = 6/5`
exactly as a rational). -/
theorem floor_growth (x cc i : ℕ) :
    (Int.floor ((1.2 : ℚ) * x * cc / (i + 1))).toNat = 6 * x * cc / (5 * (i + 1)) := by
  have h : (1.2 : ℚ) * x * cc / (i + 1)
      = ((6 * x * cc : ℕ) : ℚ) / ((5 * (i + 1) : ℕ) : ℚ) := by
    have h0 : ((i : ℚ) + 1) ≠ 0 := by positivity
    push_cast
    field_simp
    ring
  rw [h, Rat.floor_natCast_div_natCast, ← Int.natCast_div, Int.toNat_natCast]

/-- For `c ≥ 1` and `n ≥ 1`, the source expression `1 + (c - 1) / n` equals
the ceiling `⌈c / n⌉` rendered over `Nat` as `(c + n - 1) / n`. -/
theorem one_add_pred_div (c n : ℕ) (hc : 1 ≤ c) (hn : 1 ≤ n) :
    1 + (c - 1) / n = (c + n - 1) / n := by
  have h1 : c + n - 1 = (c - 1) + n := by omega
  rw [h1, Nat.add_div_right _ hn]
  exact Nat.add_comm 1 _

/-- Under the preconditions of its caller (the requested row count exceeds the
current allocation, which is strictly below the cap), `realloc_output_columns`
strictly increases `nrows_allocated`. -/
theorem realloc_output_columns_lt (st : ChunkedDataReader) (ichunk new_alloc : Nat)
    (h1 : st.nrows_allocated < new_alloc) (h2 : st.nrows_allocated < st.nrows_max) :
    st.nrows_allocated < (realloc_output_columns st ichunk new_alloc).nrows_allocated := by
  simp only [realloc_output_columns]
  split_ifs <;> omega

/-- The latch loop for `tShowAlways`: after folding over the per-iteration
wallclock outcomes, `tShowAlways` holds iff it held initially or
`tShowProgress` held and some iteration saw the wallclock past `tShowWhen`. -/
theorem progress_showAlways_eq (showProgress init : Bool) (fired : List Bool) :
    progress_showAlways showProgress init fired
      = (init || (showProgress && fired.any id)) := by
  induction fired generalizing init with
  | nil => simp [progress_showAlways]
  | cons f rest ih =>
    simp only [progress_showAlways, List.foldl_cons, List.any_cons] at *
    rw [ih]
    cases init <;> cases f <;> cases showProgress <;> simp

/-! ## Claim theorems -/

/-- Claim C1 (code bug evaluation).  The capacity invariant
`nrows_written ≤ nrows_allocated ≤ nrows_max` fails at the completion of a
commit phase when a single chunk would push `nrows_written` past `nrows_max`
while `nrows_allocated < nrows_max`: starting from the legal state
`nrows_written = 0 ≤ nrows_allocated = 50 ≤ nrows_max = 100` with
`chunkCount = 1`, committing chunk 0 with `used_nrows = 110` calls
`realloc_output_columns` (which clamps the allocation to `nrows_max = 100`)
and then sets `nrows_written := 110`, so `nrows_written > nrows_allocated`. -/
theorem read_all_commit_capacity_bug :
    ((commit_rows ⟨1, 0, 50, 100⟩ 0 110).1.nrows_written = 110 ∧
     (commit_rows ⟨1, 0, 50, 100⟩ 0 110).1.nrows_allocated = 100 ∧
     (commit_rows ⟨1, 0, 50, 100⟩ 0 110).1.nrows_max = 100) ∧
    ¬((commit_rows ⟨1, 0, 50, 100⟩ 0 110).1.nrows_written ≤
        (commit_rows ⟨1, 0, 50, 100⟩ 0 110).1.nrows_allocated) := by
  decide

/-- Claim C2 (counterexample).  With a parser whose actual start always
overshoots, both reconciliation attempts fail and `order_chunk` reaches the
failing `xassert(i)` only after performing a second `read_chunk` call: the
run records 2 calls, refuting the claim that the failure occurs without
invoking `read_chunk` a second time. -/
theorem order_chunk_second_read_before_failure :
    order_chunk overshootingReadChunk 0 ⟨1, 0, false, false⟩ ⟨0, 10, false, false⟩ =
      OrderResult.internalError 2 ∧
    (order_chunk overshootingReadChunk 0 ⟨1, 0, false, false⟩
        ⟨0, 10, false, false⟩).readChunkCalls ≠ 1 := by
  decide

/-- Claim C2 (amended).  `order_chunk` is a bounded retry with at most two
attempts: if `actual.start = last_chunk_end` and `actual.end ≥ last_chunk_end`
on the first attempt it accepts with no `read_chunk` call, advancing
`last_chunk_end := actual.end`; otherwise it re-parses once from
`last_chunk_end` with `true_start` set, and accepts the re-parsed coordinates
under the same condition with exactly one `read_chunk` call; if the condition
is still unsatisfied on the second attempt it performs one more `read_chunk`
call and then fails with `InternalInvariantError`, having called `read_chunk`
exactly twice. -/
theorem order_chunk_bounded_retry
    (read_chunk : Nat → ChunkCoordinates → ChunkCoordinates)
    (lce : Nat) (acc xcc : ChunkCoordinates) :
    (acc.start = lce ∧ lce ≤ acc.end_ →
      order_chunk read_chunk lce acc xcc = OrderResult.committed acc.end_ 0) ∧
    (¬(acc.start = lce ∧ lce ≤ acc.end_) →
      ((read_chunk 0 { xcc with start := lce, true_start := true }).start = lce ∧
          lce ≤ (read_chunk 0 { xcc with start := lce, true_start := true }).end_ →
        order_chunk read_chunk lce acc xcc =
          OrderResult.committed
            (read_chunk 0 { xcc with start := lce, true_start := true }).end_ 1) ∧
      (¬((read_chunk 0 { xcc with start := lce, true_start := true }).start = lce ∧
          lce ≤ (read_chunk 0 { xcc with start := lce, true_start := true }).end_) →
        order_chunk read_chunk lce acc xcc = OrderResult.internalError 2)) := by
  refine ⟨fun h => ?_, fun h => ⟨fun h1 => ?_, fun h1 => ?_⟩⟩
  · simp [order_chunk, h]
  · simp [order_chunk, h, h1]
  · simp [order_chunk, h, h1]

/-- Witness for `order_chunk_bounded_retry` at a concrete accepting input. -/
theorem order_chunk_bounded_retry_witness :
    order_chunk overshootingReadChunk 5 ⟨5, 9, false, false⟩ ⟨0, 0, false, false⟩ =
      OrderResult.committed 9 0 :=
  (order_chunk_bounded_retry overshootingReadChunk 5 ⟨5, 9, false, false⟩
      ⟨0, 0, false, false⟩).1 (by decide)

/-- Claim C3.  The chunking planner: `chunk_size0 = max(1000 * mean_line_len,
2 ^ 18)` (the product truncated by the cast to `size_t`), `chunk_count0 =
max(input_size / chunk_size0, 1)`; when `chunk_count0 > nthreads` the chunk
count becomes `nthreads * ⌈chunk_count0 / nthreads⌉` (the ceiling rendered
over `Nat` as `(chunk_count0 + nthreads - 1) / nthreads`) and `nthreads` is
kept; otherwise `nthreads` is reduced to `chunk_count0`; finally
`chunk_size = input_size / chunk_count`. -/
theorem determine_chunking_strategy_spec (inputSize : Nat) (lineLength : ℚ)
    (nthreads : Nat) (hll : 1 ≤ lineLength) (hnt : 1 ≤ nthreads) :
    determine_chunking_strategy inputSize lineLength nthreads =
      (let cs0 := max (Int.floor (1000 * lineLength)).toNat (2 ^ 18)
       let cc0 := max (inputSize / cs0) 1
       if nthreads < cc0 then
         let cc := nthreads * ((cc0 + nthreads - 1) / nthreads)
         (inputSize / cc, cc, nthreads)
       else
         (inputSize / cc0, cc0, cc0)) := by
  have hsh : (1 : ℕ) <<< 18 = 2 ^ 18 := by norm_num [Nat.shiftLeft_eq]
  simp only [determine_chunking_strategy, hsh]
  set cc0 := max (inputSize / max (Int.floor (1000 * lineLength)).toNat (2 ^ 18)) 1 with hcc0
  have hc1 : 1 ≤ cc0 := le_max_right _ _
  split_ifs with h
  · rw [one_add_pred_div cc0 nthreads hc1 hnt]
  · rfl

/-- Witness for `determine_chunking_strategy_spec` on scenario S2 of the spec
(1 MiB input, mean line length 50, 4 threads). -/
theorem determine_chunking_strategy_spec_witness :
    determine_chunking_strategy (1 <<< 20) 50 4 =
      (let cs0 := max (Int.floor (1000 * (50 : ℚ))).toNat (2 ^ 18)
       let cc0 := max ((1 <<< 20) / cs0) 1
       if 4 < cc0 then
         let cc := 4 * ((cc0 + 4 - 1) / 4)
         ((1 <<< 20) / cc, cc, 4)
       else
         ((1 <<< 20) / cc0, cc0, cc0)) :=
  determine_chunking_strategy_spec (1 <<< 20) 50 4 (by norm_num) (by norm_num)

/-- Claim C4 (counterexample).  The spec uses a ceiling in the growth
expression, the source truncates: at `chunkCount = 3`, `nrows_allocated =
10000`, `nrows_max = 10 ^ 9`, chunk index 1, `new_required = 10001`, the code
computes `floor(1.2 * 10001 * 3 / 2) = 18001` while the claimed formula gives
`ceil(1.2 * 10001 * 3 / 2) = 18002`. -/
theorem realloc_ceiling_counterexample :
    (realloc_output_columns ⟨3, 0, 10000, 1000000000⟩ 1 10001).nrows_allocated = 18001 ∧
    realloc_alloc_claimed ⟨3, 0, 10000, 1000000000⟩ 1 10001 = 18002 := by
  have hc : (⌈(90009 / 5 : ℚ)⌉ : ℤ) = 18002 := by norm_num [Int.ceil_eq_iff]
  constructor
  · simp only [realloc_output_columns]
    norm_num
    decide
  · simp only [realloc_alloc_claimed]
    norm_num [hc]
    decide

/-- Claim C4 (amended).  For every allocation request with
`new_required > nrows_allocated`: if `ichunk` is the last chunk index the new
allocation is `new_required` exactly, otherwise it is
`max(⌊1.2 * new_required * chunk_count / (ichunk + 1)⌋, nrows_allocated + 1024)`
(truncation, not ceiling); in both cases the result is clamped to
`min(new_alloc, nrows_max)` before becoming the new `nrows_allocated`. -/
theorem realloc_output_columns_policy (st : ChunkedDataReader) (ichunk new_required : Nat)
    (h : st.nrows_allocated < new_required) :
    (realloc_output_columns st ichunk new_required).nrows_allocated =
      realloc_alloc_amended st ichunk new_required := by
  simp only [realloc_output_columns, realloc_alloc_amended, Nat.add_comm 1024]
  split_ifs <;> omega

/-- Witness for `realloc_output_columns_policy` at a concrete state. -/
theorem realloc_output_columns_policy_witness :
    (realloc_output_columns ⟨3, 0, 10000, 1000000000⟩ 1 10001).nrows_allocated =
      realloc_alloc_amended ⟨3, 0, 10000, 1000000000⟩ 1 10001 :=
  realloc_output_columns_policy ⟨3, 0, 10000, 1000000000⟩ 1 10001 (by decide)

/-- Claim C5.  On the error path of `read_all` (an exception was captured),
the worker discards its buffers: `used_nrows` is reset to 0, and the final
`push_buffers` is not performed, for every buffered row count. -/
theorem error_path_discards_buffers (used_nrows : Nat) :
    read_all_epilogue true used_nrows = (0, false) := rfl

/-- Claim C6 (counterexample).  A run with progress reporting enabled on the
master worker, a small input (100 bytes ≤ 2 ^ 28), and no in-loop progress
emission (the 750 ms timer never fired across the three iterations) emits no
final progress event at all, refuting the claim that exactly one final event
is emitted on every run. -/
theorem final_progress_absent_on_quiet_run :
    final_progress
      (progress_showAlways (tShowProgress true true)
        (tShowAlways_init (tShowProgress true true) 100) [false, false, false])
      false false = none := by
  decide

/-- Claim C6 (amended).  The final progress event is emitted iff
`report_progress` is enabled on the master worker and either the input
exceeds `2 ^ 28` bytes or at least one in-loop progress emission occurred
(the latched `tShowAlways`); when emitted, its status is
`1 + exception_caught + is_keyboard_interrupt`, i.e. 1 for normal completion,
2 for a captured error, 3 for a keyboard interrupt; at most one final event
is ever emitted. -/
theorem final_progress_policy (report_progress tMaster : Bool) (inputSize : Nat)
    (fired : List Bool) (caught interrupted : Bool) :
    final_progress
      (progress_showAlways (tShowProgress report_progress tMaster)
        (tShowAlways_init (tShowProgress report_progress tMaster) inputSize) fired)
      caught interrupted =
      (if (report_progress && tMaster) && (decide (inputSize > 1 <<< 28) || fired.any id) then
        some (1 + (cond caught 1 0) + (cond interrupted 1 0))
      else none) := by
  rw [progress_showAlways_eq]
  simp only [tShowProgress, tShowAlways_init, final_progress]
  cases report_progress <;> cases tMaster <;> simp [Bool.and_or_distrib_left]

/-- Claim C7 (counterexample).  The reconciler accepts an empty chunk:
committing from `last_chunk_end = 0` a first chunk ending at 5 advances
`last_chunk_end` to 5, and committing next an accepted chunk with
`actual.start = actual.end = 5` leaves `last_chunk_end` at 5, which is not a
strict increase. -/
theorem lastChunkEnd_not_strictly_monotone :
    order_chunk overshootingReadChunk 0 ⟨0, 5, true, false⟩ ⟨0, 5, false, false⟩ =
      OrderResult.committed 5 0 ∧
    order_chunk overshootingReadChunk 5 ⟨5, 5, false, false⟩ ⟨5, 9, false, false⟩ =
      OrderResult.committed 5 0 ∧
    ¬(5 > 5) := by
  decide

/-- Claim C7 (amended).  `last_chunk_end` is monotone non-decreasing across
the ordered commit stage: whenever `order_chunk` accepts, the new
`last_chunk_end` is at least the previous one (strictness fails exactly for
an accepted chunk with `actual.end = last_chunk_end`). -/
theorem order_chunk_lastChunkEnd_monotone
    (read_chunk : Nat → ChunkCoordinates → ChunkCoordinates)
    (lce : Nat) (acc xcc : ChunkCoordinates) (e n : Nat)
    (h : order_chunk read_chunk lce acc xcc = OrderResult.committed e n) :
    lce ≤ e := by
  simp only [order_chunk] at h
  split_ifs at h with h1 h2
  · cases h
    exact h1.2
  · cases h
    exact h2.2

/-- Witness for `order_chunk_lastChunkEnd_monotone` at a concrete accepted
chunk. -/
theorem order_chunk_lastChunkEnd_monotone_witness : (0 : Nat) ≤ 5 :=
  order_chunk_lastChunkEnd_monotone overshootingReadChunk 0 ⟨0, 5, true, false⟩
    ⟨0, 5, false, false⟩ 5 0 (by decide)

/-- Claim C8.  Planner idempotence: re-running
`determine_chunking_strategy` with unchanged `inputSize` and `lineLength`,
using the `nthreads` the first run may have reduced, yields the same
`chunkSize`, `chunkCount` and `nthreads`. -/
theorem determine_chunking_strategy_idempotent (inputSize : Nat) (lineLength : ℚ)
    (nthreads : Nat) (hll : 1 ≤ lineLength) (hnt : 1 ≤ nthreads) :
    determine_chunking_strategy inputSize lineLength
        (determine_chunking_strategy inputSize lineLength nthreads).2.2 =
      determine_chunking_strategy inputSize lineLength nthreads := by
  by_cases h : max (inputSize / max (Int.floor (1000 * lineLength)).toNat (1 <<< 18)) 1 > nthreads
  · have hr : (determine_chunking_strategy inputSize lineLength nthreads).2.2 = nthreads := by
      simp only [determine_chunking_strategy]
      rw [if_pos h]
    rw [hr]
  · have hr : (determine_chunking_strategy inputSize lineLength nthreads).2.2
        = max (inputSize / max (Int.floor (1000 * lineLength)).toNat (1 <<< 18)) 1 := by
      simp only [determine_chunking_strategy]
      rw [if_neg h]
    rw [hr]
    simp only [determine_chunking_strategy]
    rw [if_neg h, if_neg (lt_irrefl _)]

/-- Witness for `determine_chunking_strategy_idempotent` at a concrete
input. -/
theorem determine_chunking_strategy_idempotent_witness :
    determine_chunking_strategy 1000000 50
        (determine_chunking_strategy 1000000 50 4).2.2 =
      determine_chunking_strategy 1000000 50 4 :=
  determine_chunking_strategy_idempotent 1000000 50 4 (by norm_num) (by norm_num)

/-- Claim C9.  The constructor clamps the supplied mean line length from
below at 1.0, so for every `meanLineLen ≤ 1` (including 0 and negative
values) the chunking planner behaves exactly as if the mean line length
were 1.0. -/
theorem lineLength_clamped_below (meanLineLen : ℚ) (h : meanLineLen ≤ 1)
    (inputSize nthreads : Nat) :
    determine_chunking_strategy inputSize (lineLength_init meanLineLen) nthreads =
      determine_chunking_strategy inputSize 1 nthreads := by
  rw [lineLength_init, max_eq_right h]

/-- Witness for `lineLength_clamped_below` at `meanLineLen = 0`. -/
theorem lineLength_clamped_below_witness :
    determine_chunking_strategy 100 (lineLength_init 0) 4 =
      determine_chunking_strategy 100 1 4 :=
  lineLength_clamped_below 0 (by norm_num) 100 4

/-- Claim C10.  `nrows_allocated` never decreases during a run: every call of
`realloc_output_columns` under the precondition of its caller
(`new_alloc > nrows_allocated` and `nrows_allocated < nrows_max`) strictly
increases `nrows_allocated`, and the commit phase (the only in-loop operation
touching the counter) never decreases it, given the constructor invariant
`nrows_allocated ≤ nrows_max`. -/
theorem nrows_allocated_never_decreases (st : ChunkedDataReader)
    (ichunk new_alloc i used_nrows : Nat)
    (halloc : st.nrows_allocated ≤ st.nrows_max) :
    (st.nrows_allocated < new_alloc → st.nrows_allocated < st.nrows_max →
      st.nrows_allocated < (realloc_output_columns st ichunk new_alloc).nrows_allocated) ∧
    st.nrows_allocated ≤ (commit_rows st i used_nrows).1.nrows_allocated := by
  refine ⟨fun h1 h2 => realloc_output_columns_lt st ichunk new_alloc h1 h2, ?_⟩
  simp only [commit_rows]
  split_ifs with hgrow hfull
  · exact Nat.le_refl _
  · have h2 : st.nrows_allocated < st.nrows_max := by omega
    exact Nat.le_of_lt (realloc_output_columns_lt st i _ (by omega) h2)
  · exact Nat.le_refl _

/-- Witness for `nrows_allocated_never_decreases` at a concrete state. -/
theorem nrows_allocated_never_decreases_witness :
    ((⟨2, 0, 10, 100⟩ : ChunkedDataReader).nrows_allocated <
        (realloc_output_columns ⟨2, 0, 10, 100⟩ 0 11).nrows_allocated) ∧
    ((⟨2, 0, 10, 100⟩ : ChunkedDataReader).nrows_allocated ≤
        (commit_rows ⟨2, 0, 10, 100⟩ 0 5).1.nrows_allocated) :=
  ⟨(nrows_allocated_never_decreases ⟨2, 0, 10, 100⟩ 0 11 0 5 (by decide)).1
      (by decide) (by decide),
   (nrows_allocated_never_decreases ⟨2, 0, 10, 100⟩ 0 11 0 5 (by decide)).2⟩


end Datatable
